import Mathlib

/-!
Verification of the Spatial Layer Synchronization & Selection Engine
(urbanuav2).  The definitions below are a shallow embedding of the
TypeScript sources:

* `src/lib/corridorColors.ts`   — colour mapping (`asNumber`, `getColor2d`,
  `getColor3d`);
* `src/lib/cesiumCorridorLayer.ts` — ring sanitisation
  (`ringToDegreesFlat`), polygon hierarchy construction
  (`buildPolygonHierarchy`), per-layer sync passes
  (`sync2dCorridorLayer`, `sync3dCorridorLayer`, `syncHdbFootprintLayer`);
* `src/hooks/useCesiumViewer.ts` — the accumulating click-selection
  handler and `clearSelection`.

JavaScript numbers are modelled by `JsNum`: either `NaN`, one of the two
infinities, or a finite value represented exactly as a rational.  The
comparison and arithmetic operations used by the sources are given their
JavaScript semantics on these values (`NaN` propagates; comparisons with
`NaN` are false).
-/

namespace UrbanUav

/-- Model of a JavaScript number: `NaN`, `Infinity`, `-Infinity`, or a
finite value (represented exactly by a rational). -/
inductive JsNum where
  | nan
  | inf
  | ninf
  | fin (q : ℚ)
deriving DecidableEq, Repr

namespace JsNum

/-- `Number.isNaN`. -/
def isNaN : JsNum → Bool
  | nan => true
  | _ => false

/-- `Number.isFinite`. -/
def isFinite : JsNum → Bool
  | fin _ => true
  | _ => false

/-- The finite value of a `JsNum`, if any. -/
def finite? : JsNum → Option ℚ
  | fin q => some q
  | _ => none

/-- JavaScript `<` on numbers: any comparison involving `NaN` is false. -/
def lt : JsNum → JsNum → Bool
  | nan, _ => false
  | _, nan => false
  | ninf, ninf => false
  | ninf, _ => true
  | _, ninf => false
  | inf, _ => false
  | fin _, inf => true
  | fin a, fin b => a < b

/-- JavaScript unary negation. -/
def neg : JsNum → JsNum
  | nan => nan
  | inf => ninf
  | ninf => inf
  | fin q => fin (-q)

/-- JavaScript `+` on numbers (`Infinity + -Infinity = NaN`). -/
def add : JsNum → JsNum → JsNum
  | nan, _ => nan
  | _, nan => nan
  | inf, ninf => nan
  | ninf, inf => nan
  | inf, _ => inf
  | _, inf => inf
  | ninf, _ => ninf
  | _, ninf => ninf
  | fin a, fin b => fin (a + b)

/-- JavaScript `-` on numbers. -/
def sub (a b : JsNum) : JsNum := add a (neg b)

/-- JavaScript `Math.abs`. -/
def abs : JsNum → JsNum
  | nan => nan
  | inf => inf
  | ninf => inf
  | fin q => fin |q|

/-- JavaScript `*` on numbers (`Infinity * 0 = NaN`, sign rules otherwise). -/
def mul : JsNum → JsNum → JsNum
  | nan, _ => nan
  | _, nan => nan
  | inf, inf => inf
  | inf, ninf => ninf
  | ninf, inf => ninf
  | ninf, ninf => inf
  | inf, fin q => if q = 0 then nan else if 0 < q then inf else ninf
  | fin q, inf => if q = 0 then nan else if 0 < q then inf else ninf
  | ninf, fin q => if q = 0 then nan else if 0 < q then ninf else inf
  | fin q, ninf => if q = 0 then nan else if 0 < q then ninf else inf
  | fin a, fin b => fin (a * b)

/-- JavaScript `/` on numbers (`0/0 = NaN`, `q/0 = ±Infinity`,
`±Infinity / ±Infinity = NaN`, `q/±Infinity = 0`). -/
def div : JsNum → JsNum → JsNum
  | nan, _ => nan
  | _, nan => nan
  | inf, inf => nan
  | inf, ninf => nan
  | ninf, inf => nan
  | ninf, ninf => nan
  | inf, fin q => if 0 ≤ q then inf else ninf
  | ninf, fin q => if 0 ≤ q then ninf else inf
  | fin _, inf => fin 0
  | fin _, ninf => fin 0
  | fin a, fin b =>
      if b = 0 then (if a = 0 then nan else if 0 < a then inf else ninf)
      else fin (a / b)

end JsNum

/-- A JavaScript property value as far as the engine inspects it: a
number, a string (carrying the result of coercing it with `Number(...)`,
which models the external JS string-to-number parser), `undefined`
(including an absent property), or any other value. -/
inductive JsVal where
  | num (x : JsNum)
  | str (parsed : JsNum)
  | undefVal
  | other
deriving DecidableEq, Repr

/-- `asNumber` from `corridorColors.ts`:
`typeof v === 'number' ? v : typeof v === 'string' ? Number(v) : NaN`,
returning the value when `Number.isFinite(n)` and `null` otherwise. -/
def asNumber : JsVal → Option ℚ
  | .num x => x.finite?
  | .str p => p.finite?
  | .undefVal => none
  | .other => none

/-- `clamp01` from `corridorColors.ts`: `Math.max(0, Math.min(1, t))`. -/
def clamp01 (t : ℚ) : ℚ := max 0 (min 1 t)

/-- A Cesium colour; components are normalised JavaScript numbers. -/
structure Color where
  red : JsNum
  green : JsNum
  blue : JsNum
  alpha : JsNum
deriving DecidableEq, Repr

namespace Color

/-- `Cesium.Color.fromBytes`: each byte is divided by 255. -/
def fromBytes (r g b a : ℚ) : Color :=
  ⟨.fin (r / 255), .fin (g / 255), .fin (b / 255), .fin (a / 255)⟩

/-- `CesiumMath.lerp p q t = (1 - t) * p + t * q` (Cesium's scalar lerp). -/
def lerpNum (p q t : JsNum) : JsNum :=
  (JsNum.sub (.fin 1) t).mul p |>.add (t.mul q)

/-- `Cesium.Color.lerp`: component-wise scalar lerp. -/
def lerp (s e : Color) (t : JsNum) : Color :=
  ⟨lerpNum s.red e.red t, lerpNum s.green e.green t,
   lerpNum s.blue e.blue t, lerpNum s.alpha e.alpha t⟩

end Color

/-- The per-dataset `{min, max}` priority range (computed by the map
container from finite attribute values only, hence rational fields). -/
structure PriorityRange where
  min : ℚ
  max : ℚ
deriving DecidableEq, Repr

/-- `CorridorProperties` restricted to the field the colour mapper
reads; the open-ended rest of the property bag is irrelevant here. -/
structure CorridorProps where
  priorityID : JsVal
deriving DecidableEq, Repr

/-- `props?.priorityID`: an absent property bag reads as `undefined`. -/
def priorityID2d : Option CorridorProps → JsVal
  | some p => p.priorityID
  | none => .undefVal

/-- `getColor2d` from `corridorColors.ts`. -/
def getColor2d (props : Option CorridorProps) (priorityRange : Option PriorityRange) :
    Color :=
  let fallback := Color.fromBytes 80 160 255 135
  match asNumber (priorityID2d props), priorityRange with
  | some n, some r =>
      let light := Color.fromBytes 255 255 204 135
      let dark := Color.fromBytes 177 0 38 135
      -- `priorityRange.max - priorityRange.min || 1`: a zero difference is
      -- falsy in JavaScript and falls back to 1.
      let denom : ℚ := if r.max - r.min = 0 then 1 else r.max - r.min
      let t := clamp01 ((n - r.min) / denom)
      Color.lerp light dark (.fin t)
  | _, _ => fallback

/-- `Network3DProperties` restricted to the fields the engine reads. -/
structure Network3DProps where
  priorityID : JsVal
  corridor_type : Option String
  min_altitude : JsVal
  max_altitude : JsVal
deriving DecidableEq, Repr

/-- `CORRIDOR_TYPE_COLORS[typeKey] ?? CORRIDOR_TYPE_COLORS.default`. -/
def corridorTypeColor (typeKey : String) : Color :=
  if typeKey = "open_space" then Color.fromBytes 100 180 255 140
  else if typeKey = "above_building" then Color.fromBytes 255 160 80 140
  else Color.fromBytes 120 200 120 140

/-- `props?.priorityID != null ? Number(props.priorityID) : null` from
`getColor3d`; `Number` of a non-number non-string value is `NaN`. -/
def priorityNum3d : Option Network3DProps → Option JsNum
  | none => none
  | some p =>
    match p.priorityID with
    | .num x => some x
    | .str q => some q
    | .undefVal => none
    | .other => some .nan

/-- `getColor3d` from `corridorColors.ts`. -/
def getColor3d (props : Option Network3DProps) (priorityRange : Option PriorityRange) :
    Color :=
  let typeKey := (props.map (·.corridor_type)).join.getD "default"
  let byType := corridorTypeColor typeKey
  match priorityNum3d props with
  | none => byType
  | some x =>
    match x.finite?, priorityRange with
    | some n, some r =>
        let light := Color.fromBytes 255 255 204 140
        let dark := Color.fromBytes 177 0 38 140
        let denom : ℚ := if r.max - r.min = 0 then 1 else r.max - r.min
        let t := clamp01 ((n - r.min) / denom)
        Color.lerp light dark (.fin t)
    | _, _ => byType

/-! ## Ring sanitiser (`ringToDegreesFlat`, `cesiumCorridorLayer.ts`) -/

/-- The tolerance `1e-7` used for deduplication and the degeneracy check. -/
def EPS : ℚ := 1 / 10000000

/-- `EPS` as a JavaScript number. -/
def EPSn : JsNum := .fin EPS

/-- An element of an input ring, as far as the sanitiser inspects it: an
array (whose first two elements are recorded; a third elevation component
is never read) or a non-array value. -/
inductive Pt where
  | mk (lon lat : JsVal)
  | notArr
deriving DecidableEq, Repr

/-- The validity filter from `ringToDegreesFlat`:
`Array.isArray(p) && typeof p[0] === 'number' && typeof p[1] === 'number'
&& !Number.isNaN(p[0]) && !Number.isNaN(p[1])`.  Returns the coordinates
when the point passes.  Note that `±Infinity` passes this filter. -/
def validPt : Pt → Option (JsNum × JsNum)
  | .mk (.num a) (.num b) => if a.isNaN || b.isNaN then none else some (a, b)
  | _ => none

/-- The running bounding box of valid points. -/
structure BBox where
  minLon : JsNum
  maxLon : JsNum
  minLat : JsNum
  maxLat : JsNum
deriving DecidableEq, Repr

/-- Initial bounds: `minLon = Infinity`, `maxLon = -Infinity`, …. -/
def BBox.init : BBox := ⟨.inf, .ninf, .inf, .ninf⟩

/-- The four conditional updates
`if (p[0] < minLon) minLon = p[0]` … from `ringToDegreesFlat`. -/
def BBox.update (b : BBox) (lon lat : JsNum) : BBox :=
  { minLon := if lon.lt b.minLon then lon else b.minLon
    maxLon := if b.maxLon.lt lon then lon else b.maxLon
    minLat := if lat.lt b.minLat then lat else b.minLat
    maxLat := if b.maxLat.lt lat then lat else b.maxLat }

/-- Appending a valid point to the (reversed) flat output list, with the
consecutive-near-duplicate check: when at least one point has been kept
(`out.length >= 2`), a point whose longitude and latitude both differ
from the previously kept point's by less than `1e-7` is skipped. -/
def pushDedup (out : List JsNum) (lon lat : JsNum) : List JsNum :=
  match out with
  | la :: lo :: _ =>
      if (JsNum.sub lon lo).abs.lt EPSn && (JsNum.sub lat la).abs.lt EPSn then out
      else lat :: lon :: out
  | _ => lat :: lon :: out

/-- The main loop of `ringToDegreesFlat`: one pass over the ring,
filtering invalid points, tracking the bounding box of every valid
point, and appending non-duplicate points to the flat list (kept in
reverse order here; the caller reverses it). -/
def sanLoop : List Pt → List JsNum → BBox → List JsNum × BBox
  | [], out, b => (out, b)
  | p :: ps, out, b =>
    match validPt p with
    | none => sanLoop ps out b
    | some (lon, lat) => sanLoop ps (pushDedup out lon lat) (b.update lon lat)

/-- `ringToDegreesFlat` from `cesiumCorridorLayer.ts`: sanitise a ring
into a flat `[lon, lat, lon, lat, …]` list, returning `[]` when the
bounding box of the valid points is narrower than `1e-7` in either
axis. -/
def ringToDegreesFlat (ring : List Pt) : List JsNum :=
  let r := sanLoop ring [] .init
  let width := JsNum.sub r.2.maxLon r.2.minLon
  let height := JsNum.sub r.2.maxLat r.2.minLat
  if width.lt EPSn || height.lt EPSn then [] else r.1.reverse

/-! Reference (specification-side) descriptions of the sanitiser's
output, used to state the claims about it.  These are *not* translations
of the source; they restate the filter and the deduplication policy
directly, and the theorems below relate them to `ringToDegreesFlat`. -/

/-- The valid points of a ring, in order. -/
def validPoints (ring : List Pt) : List (JsNum × JsNum) := ring.filterMap validPt

/-- Two points are near-duplicates when both coordinates differ by less
than `1e-7` (in the JavaScript `<` sense). -/
def isNear (p last : JsNum × JsNum) : Bool :=
  (JsNum.sub p.1 last.1).abs.lt EPSn && (JsNum.sub p.2 last.2).abs.lt EPSn

/-- Drop every point that is a near-duplicate of the previously kept
point (the first argument is the most recently kept point). -/
def dedupNear : JsNum × JsNum → List (JsNum × JsNum) → List (JsNum × JsNum)
  | _, [] => []
  | last, p :: ps => if isNear p last then dedupNear last ps else p :: dedupNear p ps

/-- The points of a ring that survive the validity filter and the
consecutive-near-duplicate deduplication, in order. -/
def keptPoints (ring : List Pt) : List (JsNum × JsNum) :=
  match validPoints ring with
  | [] => []
  | p :: ps => p :: dedupNear p ps

/-- Flatten a point list to `[lon, lat, lon, lat, …]`. -/
def flatPairs (l : List (JsNum × JsNum)) : List JsNum :=
  l.flatMap fun p => [p.1, p.2]

/-- The bounding box of a list of points. -/
def bboxOf (pts : List (JsNum × JsNum)) : BBox :=
  pts.foldl (fun b p => b.update p.1 p.2) .init

/-- The degeneracy test applied at the end of `ringToDegreesFlat`:
bounding width or height below `1e-7`. -/
def BBox.degenerate (b : BBox) : Bool :=
  (JsNum.sub b.maxLon b.minLon).lt EPSn || (JsNum.sub b.maxLat b.minLat).lt EPSn

/-! ## Polygon hierarchy construction (`buildPolygonHierarchy`) -/

/-- Model of the external `Cesium.Cartesian3.fromDegreesArray` call: per
the source's own comment it throws (caught by the surrounding
`try`/`catch`) when a `NaN` or extreme float bypassed validation, and
succeeds otherwise.  The claims below do not depend on where exactly the
external call fails: they only use the early `length < 6` rejection. -/
def fromDegreesArray (coords : List JsNum) : Option (List JsNum) :=
  if coords.all (·.isFinite) then some coords else none

/-- A `Cesium.PolygonHierarchy`: outer boundary plus holes (kept here in
flat-degrees form, which is all the model needs). -/
structure PolygonHierarchy where
  outer : List JsNum
  holes : List (List JsNum)
deriving DecidableEq, Repr

/-- `buildPolygonHierarchy` from `cesiumCorridorLayer.ts`: reject when
there is no outer ring or its sanitised form has fewer than 3 coordinate
pairs; otherwise build the hierarchy inside a recoverable-failure
boundary (a throw anywhere inside the `try` yields `null`).  Holes
shorter than 3 pairs are dropped silently. -/
def buildPolygonHierarchy (rings : List (List Pt)) : Option PolygonHierarchy :=
  match rings with
  | [] => none
  | r0 :: rest =>
    let outerCoords := ringToDegreesFlat r0
    if outerCoords.length < 6 then none
    else
      match fromDegreesArray outerCoords with
      | none => none
      | some outer =>
        match (rest.map ringToDegreesFlat |>.filter (6 ≤ ·.length)).mapM fromDegreesArray with
        | none => none
        | some holes => some ⟨outer, holes⟩

/-! ## Colours applied during a sync pass -/

/-- `OUTLINE_COLOR`. -/
def OUTLINE_COLOR : Color := Color.fromBytes 20 20 20 200

/-- `HDB_DEFAULT_COLOR`. -/
def HDB_DEFAULT_COLOR : Color := Color.fromBytes 180 150 110 140

/-- `applyAlpha` from `cesiumCorridorLayer.ts`: keep RGB, replace alpha. -/
def applyAlpha (color : Color) (alpha : JsNum) : Color :=
  ⟨color.red, color.green, color.blue, alpha⟩

/-- Value of a hexadecimal digit. -/
def hexDigitVal (c : Char) : Option ℕ :=
  if '0' ≤ c ∧ c ≤ '9' then some (c.toNat - '0'.toNat)
  else if 'a' ≤ c ∧ c ≤ 'f' then some (c.toNat - 'a'.toNat + 10)
  else if 'A' ≤ c ∧ c ≤ 'F' then some (c.toNat - 'A'.toNat + 10)
  else none

/-- `parseInt(s, 16)` on the short slices taken by `hexToColor`: the
longest prefix of hexadecimal digits is parsed; no digit at all gives
`NaN`.  (Sign, whitespace and `0x`-prefix handling of the full builtin
never arise on two-character slices of a `#RRGGBB` string.) -/
def parseIntHex (s : List Char) : JsNum :=
  match s with
  | [] => .nan
  | c :: _ =>
    match hexDigitVal c with
    | none => .nan
    | some _ => .fin (go 0 s)
where
  go (acc : ℕ) : List Char → ℚ
    | [] => (acc : ℚ)
    | c :: cs =>
      match hexDigitVal c with
      | some d => go (16 * acc + d) cs
      | none => (acc : ℚ)

/-- JavaScript `String.prototype.slice(a, b)` (for `0 ≤ a ≤ b`). -/
def jsSlice (s : String) (a b : ℕ) : List Char :=
  (s.toList.drop a).take (b - a)

/-- `hexToColor` from `cesiumCorridorLayer.ts`: parse `#RRGGBB`, divide
each byte by 255, attach the given alpha. -/
def hexToColor (hex : String) (alpha : JsNum) : Color :=
  ⟨(parseIntHex (jsSlice hex 1 3)).div (.fin 255),
   (parseIntHex (jsSlice hex 3 5)).div (.fin 255),
   (parseIntHex (jsSlice hex 5 7)).div (.fin 255),
   alpha⟩

/-- The per-feature material computation of `sync2dCorridorLayer`
(lines 223–228): start from the computed colour; a *truthy* `colorHex`
(present and non-empty) takes precedence, with `alpha ?? material.alpha`;
otherwise a provided `alpha` alone replaces the computed alpha. -/
def material2d (props : Option CorridorProps) (priorityRange : Option PriorityRange)
    (colorHex : Option String) (alpha : Option ℚ) : Color :=
  let material := getColor2d props priorityRange
  match colorHex with
  | some hx =>
      if hx = "" then
        -- the empty string is falsy in JavaScript, so `if (colorHex)` falls
        -- through to the `alpha` branch
        match alpha with
        | some a => applyAlpha material (.fin a)
        | none => material
      else hexToColor hx (match alpha with | some a => .fin a | none => material.alpha)
  | none =>
      match alpha with
      | some a => applyAlpha material (.fin a)
      | none => material

/-- The identical override logic in `sync3dCorridorLayer`, applied to
`getColor3d`. -/
def material3d (props : Option Network3DProps) (priorityRange : Option PriorityRange)
    (colorHex : Option String) (alpha : Option ℚ) : Color :=
  let material := getColor3d props priorityRange
  match colorHex with
  | some hx =>
      if hx = "" then
        match alpha with
        | some a => applyAlpha material (.fin a)
        | none => material
      else hexToColor hx (match alpha with | some a => .fin a | none => material.alpha)
  | none =>
      match alpha with
      | some a => applyAlpha material (.fin a)
      | none => material

/-- The identical override logic in `syncHdbFootprintLayer`, applied to
`HDB_DEFAULT_COLOR.clone()`. -/
def materialHdb (colorHex : Option String) (alpha : Option ℚ) : Color :=
  let material := HDB_DEFAULT_COLOR
  match colorHex with
  | some hx =>
      if hx = "" then
        match alpha with
        | some a => applyAlpha material (.fin a)
        | none => material
      else hexToColor hx (match alpha with | some a => .fin a | none => material.alpha)
  | none =>
      match alpha with
      | some a => applyAlpha material (.fin a)
      | none => material

/-! ## Rendered entities and the per-feature adders -/

/-- The `_layer` tag stapled onto each entity. -/
inductive HoverLayer where
  | layer2d
  | layer3d
  | layerHdb
deriving DecidableEq, Repr

/-- `HdbFootprintProperties` restricted to the fields the engine reads. -/
structure HdbProps where
  height : JsVal
  levels : JsVal
deriving DecidableEq, Repr

/-- The `_corridorProps` metadata attached to an entity. -/
inductive PropsAny where
  | p2d (p : CorridorProps)
  | p3d (p : Network3DProps)
  | phdb (p : HdbProps)
deriving DecidableEq, Repr

/-- The polygon graphics of an added entity (the fields the claims
concern: hierarchy, the two heights, fill material, outline colour). -/
structure PolygonGraphics where
  hierarchy : PolygonHierarchy
  height : JsNum
  extrudedHeight : JsNum
  material : Color
  outlineColor : Color
deriving DecidableEq, Repr

/-- A rendered entity with its synchroniser-attached metadata. -/
structure Entity where
  polygon : PolygonGraphics
  corridorProps : PropsAny
  layer : HoverLayer
deriving DecidableEq, Repr

/-- `addPolygon2d`: build the hierarchy (dropping the polygon when it is
rejected) and add a flat entity.  The `try`/`catch` around
`ds.entities.add` only guards external renderer failures; the add itself
is modelled as succeeding. -/
def addPolygon2d (rings : List (List Pt)) (material : Color) (props : CorridorProps) :
    Option Entity :=
  match buildPolygonHierarchy rings with
  | none => none
  | some h =>
      some { polygon := { hierarchy := h, height := .fin 0, extrudedHeight := .fin 0,
                          material, outlineColor := OUTLINE_COLOR }
             corridorProps := .p2d props, layer := .layer2d }

/-- `addPolygon3d`: extruded between `minAlt` and `maxAlt`. -/
def addPolygon3d (rings : List (List Pt)) (minAlt maxAlt : JsNum) (material : Color)
    (props : Network3DProps) : Option Entity :=
  match buildPolygonHierarchy rings with
  | none => none
  | some h =>
      some { polygon := { hierarchy := h, height := minAlt, extrudedHeight := maxAlt,
                          material, outlineColor := OUTLINE_COLOR }
             corridorProps := .p3d props, layer := .layer3d }

/-- `addPolygonHdb`: extruded from the ground to `maxAlt`. -/
def addPolygonHdb (rings : List (List Pt)) (maxAlt : JsNum) (material : Color)
    (props : HdbProps) : Option Entity :=
  match buildPolygonHierarchy rings with
  | none => none
  | some h =>
      some { polygon := { hierarchy := h, height := .fin 0, extrudedHeight := maxAlt,
                          material, outlineColor := Color.fromBytes 80 60 40 160 }
             corridorProps := .phdb props, layer := .layerHdb }

/-! ## Features and the chunked sync passes -/

/-- A GeoJSON geometry as the sync passes inspect it. -/
inductive Geometry where
  | polygon (coordinates : List (List Pt))
  | multiPolygon (coordinates : List (List (List Pt)))
deriving DecidableEq, Repr

/-- A feature: optional geometry (`if (!geom) continue`) and an optional
property bag (`feature.properties ?? {}`). -/
structure Feature (P : Type) where
  geometry : Option Geometry
  properties : Option P
deriving DecidableEq, Repr

/-- A feature collection (the `features` array). -/
structure FeatureCollection (P : Type) where
  features : List (Feature P)
deriving DecidableEq, Repr

/-- The empty property bag `{}` read through `CorridorProperties`. -/
def emptyCorridorProps : CorridorProps := ⟨.undefVal⟩

/-- The empty property bag `{}` read through `Network3DProperties`. -/
def emptyNetwork3dProps : Network3DProps := ⟨.undefVal, none, .undefVal, .undefVal⟩

/-- The empty property bag `{}` read through `HdbFootprintProperties`. -/
def emptyHdbProps : HdbProps := ⟨.undefVal, .undefVal⟩

/-- The `addRings` closure shared by the three sync passes:
`if (!rings[0] || rings[0].length < 3) return` then delegate to an adder.
(`rings[0]` is falsy only when absent: an empty array is truthy.) -/
def addRingsWith (add : List (List Pt) → Option Entity) (rings : List (List Pt)) :
    List Entity :=
  match rings with
  | [] => []
  | r0 :: _ => if r0.length < 3 then [] else (add rings).toList

/-- Expand one geometry through `addRings`: one call for a `Polygon`,
one per constituent polygon for a `MultiPolygon`. -/
def geometryEntities (add : List (List Pt) → Option Entity) : Geometry → List Entity
  | .polygon coords => addRingsWith add coords
  | .multiPolygon polys => polys.flatMap (addRingsWith add)

/-- The body of the 2D chunk loop for a single feature. -/
def processFeature2d (priorityRange : Option PriorityRange) (colorHex : Option String)
    (alpha : Option ℚ) (f : Feature CorridorProps) : List Entity :=
  match f.geometry with
  | none => []
  | some geom =>
    let props := f.properties.getD emptyCorridorProps
    let material := material2d (some props) priorityRange colorHex alpha
    geometryEntities (fun rings => addPolygon2d rings material props) geom

/-- `typeof props.min_altitude === 'number' ? props.min_altitude : 0`. -/
def minAltOf (props : Network3DProps) : JsNum :=
  match props.min_altitude with
  | .num x => x
  | _ => .fin 0

/-- `typeof props.max_altitude === 'number' ? props.max_altitude : minAlt + 100`. -/
def maxAltOf (props : Network3DProps) : JsNum :=
  match props.max_altitude with
  | .num x => x
  | _ => (minAltOf props).add (.fin 100)

/-- The body of the 3D chunk loop for a single feature. -/
def processFeature3d (priorityRange : Option PriorityRange) (colorHex : Option String)
    (alpha : Option ℚ) (f : Feature Network3DProps) : List Entity :=
  match f.geometry with
  | none => []
  | some geom =>
    let props := f.properties.getD emptyNetwork3dProps
    let material := material3d (some props) priorityRange colorHex alpha
    geometryEntities
      (fun rings => addPolygon3d rings (minAltOf props) (maxAltOf props) material props) geom

/-- The `levels`-based fallback of the HDB height computation:
`levels * 3` for a numeric `levels`, `Number(levels) * 3` for a numeric
string, else the generic default `10`. -/
def hdbHeightFromLevels : JsVal → JsNum
  | .num y => y.mul (.fin 3)
  | .str p => if p.isNaN then .fin 10 else p.mul (.fin 3)
  | _ => .fin 10

/-- The HDB extrusion height: a positive numeric `height` property wins,
otherwise fall back to `levels`. -/
def hdbHeight (props : HdbProps) : JsNum :=
  match props.height with
  | .num x => if (JsNum.fin 0).lt x then x else hdbHeightFromLevels props.levels
  | _ => hdbHeightFromLevels props.levels

/-- The body of the HDB chunk loop for a single feature. -/
def processFeatureHdb (colorHex : Option String) (alpha : Option ℚ)
    (f : Feature HdbProps) : List Entity :=
  match f.geometry with
  | none => []
  | some geom =>
    let props := f.properties.getD emptyHdbProps
    let material := materialHdb colorHex alpha
    geometryEntities
      (fun rings => addPolygonHdb rings (hdbHeight props) material props) geom

/-- The chunked cooperative loop (`processChunk`) shared verbatim by the
three sync passes: at each invocation first check the abort signal (a
predicate of the invocation index, modelling `signal?.aborted` at that
chunk boundary) and resolve if set; otherwise process the next batch of
200 features and either resolve (last chunk) or yield and recurse.  The
first component counts `resolve()` calls along the execution. -/
def processChunks {P : Type} (perFeature : Feature P → List Entity) (signal : ℕ → Bool)
    (chunkIdx : ℕ) (remaining : List (Feature P)) (acc : List Entity) :
    ℕ × List Entity :=
  if signal chunkIdx then (1, acc)
  else if h : (remaining.drop 200).isEmpty then
    (1, acc ++ (remaining.take 200).flatMap perFeature)
  else
    processChunks perFeature signal (chunkIdx + 1) (remaining.drop 200)
      (acc ++ (remaining.take 200).flatMap perFeature)
termination_by remaining.length
decreasing_by
  have h2 : 0 < (remaining.drop 200).length := by
    cases hr : remaining.drop 200 with
    | nil => rw [hr] at h; simp [List.isEmpty] at h
    | cons a t => simp [hr]
  simp only [List.length_drop] at h2 ⊢
  omega

/-- The outcome of a sync pass: how many times the promise's `resolve`
was called, and the final contents of the data source's entity
collection (`none` when there was no data source to touch). -/
structure SyncResult where
  resolveCount : ℕ
  entities : Option (List Entity)
deriving DecidableEq, Repr

/-- `sync2dCorridorLayer`: resolve immediately when the data source is
null; otherwise clear it (`removeAll`), resolve immediately when the
layer is disabled or the data is null, and otherwise run the chunk
loop. -/
def sync2dCorridorLayer (ds : Option (List Entity))
    (data : Option (FeatureCollection CorridorProps)) (priorityRange : Option PriorityRange)
    (enabled : Bool) (colorHex : Option String) (alpha : Option ℚ) (signal : ℕ → Bool) :
    SyncResult :=
  match ds with
  | none => ⟨1, none⟩
  | some _ =>
    match enabled, data with
    | true, some d =>
        let r := processChunks (processFeature2d priorityRange colorHex alpha) signal 0
          d.features []
        ⟨r.1, some r.2⟩
    | _, _ => ⟨1, some []⟩

/-- `sync3dCorridorLayer` (same skeleton, 3D per-feature body). -/
def sync3dCorridorLayer (ds : Option (List Entity))
    (data : Option (FeatureCollection Network3DProps)) (priorityRange : Option PriorityRange)
    (enabled : Bool) (colorHex : Option String) (alpha : Option ℚ) (signal : ℕ → Bool) :
    SyncResult :=
  match ds with
  | none => ⟨1, none⟩
  | some _ =>
    match enabled, data with
    | true, some d =>
        let r := processChunks (processFeature3d priorityRange colorHex alpha) signal 0
          d.features []
        ⟨r.1, some r.2⟩
    | _, _ => ⟨1, some []⟩

/-- `syncHdbFootprintLayer` (same skeleton, HDB per-feature body, no
priority range). -/
def syncHdbFootprintLayer (ds : Option (List Entity))
    (data : Option (FeatureCollection HdbProps)) (enabled : Bool)
    (colorHex : Option String) (alpha : Option ℚ) (signal : ℕ → Bool) : SyncResult :=
  match ds with
  | none => ⟨1, none⟩
  | some _ =>
    match enabled, data with
    | true, some d =>
        let r := processChunks (processFeatureHdb colorHex alpha) signal 0 d.features []
        ⟨r.1, some r.2⟩
    | _, _ => ⟨1, some []⟩

/-! ## Pick & highlight state (`useCesiumViewer.ts`)

The click handler and `clearSelection` act on Cesium entities through
their polygon material.  They are modelled over abstract entity
identities: `displayed` maps each entity to its current fill colour
(every entity the system selects carries a `ColorMaterialProperty`, as
all three adders and both colour writers install one), and
`selectedEntitiesRef` is the ordered list of `{entity, color}` pairs. -/

/-- Abstract identity of a rendered entity. -/
abbrev EntityId := ℕ

/-- The fixed highlight colour `Cesium.Color.fromBytes(255, 220, 0, 220)`. -/
def HIGHLIGHT : Color := Color.fromBytes 255 220 0 220

/-- One element of `selectedEntitiesRef.current`. -/
structure SelectionEntry where
  entity : EntityId
  color : Color
deriving DecidableEq, Repr

/-- The state the click handler and `clearSelection` read and write:
current displayed colours, the selection list, and the published
selection (`setSelected`; publishing `null` is modelled as `[]`). -/
structure SelState where
  displayed : EntityId → Color
  selectedEntities : List SelectionEntry
  published : List EntityId

/-- One object returned by `drillPick`: either an entity carrying the
synchroniser-attached metadata and a polygon, or anything else (skipped
by the loop body's `props && layer && id && id.polygon` guard). -/
inductive Pick where
  | hit (id : EntityId)
  | bare
deriving DecidableEq, Repr

/-- The loop body of the LEFT_CLICK handler for one picked entity: skip
it when already selected; otherwise capture its current colour, append a
`SelectionEntry`, overwrite the displayed colour with the highlight
colour, and record it for publication. -/
def selectOne (s : SelState) (e : EntityId) : SelState :=
  if s.selectedEntities.any (·.entity = e) then s
  else
    { displayed := Function.update s.displayed e HIGHLIGHT
      selectedEntities := s.selectedEntities ++ [⟨e, s.displayed e⟩]
      published := s.published ++ [e] }

/-- One iteration of the click handler's loop over `drillPick` results:
picked objects without the synchroniser metadata are skipped. -/
def clickStep (st : SelState) (p : Pick) : SelState :=
  match p with
  | .hit e => selectOne st e
  | .bare => st

/-- The LEFT_CLICK handler (accumulating variant): an empty `drillPick`
result returns immediately ("clicking nothing shouldn't clear, just
ignore"); otherwise each picked object with metadata goes through
`selectOne` in order. -/
def clickSelect (picks : List Pick) (s : SelState) : SelState :=
  if picks.isEmpty then s
  else picks.foldl clickStep s

/-- `clearSelection`: write each entry's saved colour back to its
entity's polygon material (in list order), empty the selection list, and
publish the empty selection. -/
def clearSelection (s : SelState) : SelState :=
  { displayed :=
      s.selectedEntities.foldl (fun d en => Function.update d en.entity en.color) s.displayed
    selectedEntities := []
    published := [] }

/-- A user-level selection operation: a click (with its `drillPick`
result) or an explicit clear action. -/
inductive SelOp where
  | click (picks : List Pick)
  | clear

/-- Apply one operation. -/
def applyOp (s : SelState) : SelOp → SelState
  | .click picks => clickSelect picks s
  | .clear => clearSelection s

/-- Apply a sequence of operations. -/
def applyOps (ops : List SelOp) (s : SelState) : SelState := ops.foldl applyOp s

/-- The initial session state: no selection, original colours
`d0`. -/
def initSel (d0 : EntityId → Color) : SelState := ⟨d0, [], []⟩

/-! ## Layer rebuild versus the selection set (claim C1)

`sync2dCorridorLayer` begins every pass with `ds.entities.removeAll()`
(`cesiumCorridorLayer.ts` line 206), destroying every rendered primitive
of the layer.  Neither the sync functions nor their callers (the map
container's effects) read or write `selectedEntitiesRef`; the only code
that empties it is the explicit `clearSelection` action.  The clear step
of a sync pass therefore acts on the combined state as follows. -/

/-- The 2D layer's rendered entities (by identity) together with the
selection state owned by `useCesiumViewer`. -/
structure LayerWorld where
  container2d : Option (List EntityId)
  sel : SelState

/-- The clear step at the start of a `sync2dCorridorLayer` pass:
`ds.entities.removeAll()` empties the container (when the data source
exists); no statement in the pass or its callers touches
`selectedEntitiesRef`, so the selection state is carried over
unchanged. -/
def sync2dClearStep (w : LayerWorld) : LayerWorld :=
  { w with container2d := w.container2d.map (fun _ => []) }

/-- `computePriorityRange2d` from the map container: collect the
permissively parsed finite `priorityID` values of the collection; `null`
when there are none, otherwise `{min: Math.min(...vals),
max: Math.max(...vals)}`. -/
def computePriorityRange2d (data : Option (FeatureCollection CorridorProps)) :
    Option PriorityRange :=
  match data with
  | none => none
  | some d =>
    match d.features.filterMap (fun f => asNumber (priorityID2d f.properties)) with
    | [] => none
    | v :: vs => some ⟨vs.foldl min v, vs.foldl max v⟩

/-! ## Concrete example inputs used by the witnesses below -/

/-- Four valid colinear points: width `6e-7` but height `0`. -/
def colinearRing : List Pt :=
  [.mk (.num (.fin 0)) (.num (.fin 0)),
   .mk (.num (.fin (2 / 10000000))) (.num (.fin 0)),
   .mk (.num (.fin (4 / 10000000))) (.num (.fin 0)),
   .mk (.num (.fin (6 / 10000000))) (.num (.fin 0))]

/-- A ring containing a point with longitude `Infinity`: the point passes
the `Number.isNaN` filter and the bounding box stays non-degenerate. -/
def infinityRing : List Pt :=
  [.mk (.num (.fin 0)) (.num (.fin 0)),
   .mk (.num .inf) (.num (.fin 1)),
   .mk (.num (.fin 1)) (.num (.fin 1)),
   .mk (.num (.fin 0)) (.num (.fin 1))]

/-- A well-separated unit square ring. -/
def squareRing : List Pt :=
  [.mk (.num (.fin 0)) (.num (.fin 0)),
   .mk (.num (.fin 1)) (.num (.fin 0)),
   .mk (.num (.fin 1)) (.num (.fin 1)),
   .mk (.num (.fin 0)) (.num (.fin 1))]

/-- A two-point ring: fewer than 3 kept vertices. -/
def twoPointRing : List Pt :=
  [.mk (.num (.fin 0)) (.num (.fin 0)),
   .mk (.num (.fin 1)) (.num (.fin 1))]

/-- A 2D feature over the unit square. -/
def squareFeature2d : Feature CorridorProps :=
  ⟨some (.polygon [squareRing]), none⟩

/-- A 3D feature with a triangular ring and no altitude attributes. -/
def feature3dNoAlt : Feature Network3DProps :=
  ⟨some (.polygon [[.mk (.num (.fin 0)) (.num (.fin 0)),
                    .mk (.num (.fin 1)) (.num (.fin 0)),
                    .mk (.num (.fin 1)) (.num (.fin 1))]]),
   some ⟨.undefVal, none, .undefVal, .undefVal⟩⟩

/-- The entity produced for `feature3dNoAlt` by the 3D per-feature
processing with no overrides and no priority range. -/
def entity3dNoAlt : Entity :=
  { polygon := { hierarchy := ⟨[.fin 0, .fin 0, .fin 1, .fin 0, .fin 1, .fin 1], []⟩
                 height := .fin 0
                 extrudedHeight := .fin 100
                 material := Color.fromBytes 120 200 120 140
                 outlineColor := OUTLINE_COLOR }
    corridorProps := .p3d ⟨.undefVal, none, .undefVal, .undefVal⟩
    layer := .layer3d }

/-- A world state in which entity `0` is the 2D layer's only rendered
primitive and is currently selected (highlighted, with its original
fill colour saved in the selection entry). -/
def selectedWorld : LayerWorld :=
  ⟨some [0],
   ⟨fun _ => HIGHLIGHT, [⟨0, Color.fromBytes 80 160 255 135⟩], [0]⟩⟩

/-! # Theorems -/

/-! ## Sanitiser lemmas -/

theorem validPt_some_not_nan {p : Pt} {q : JsNum × JsNum} (h : validPt p = some q) :
    q.1 ≠ JsNum.nan ∧ q.2 ≠ JsNum.nan := by
  cases p with
  | notArr => simp [validPt] at h
  | mk lon lat =>
    cases lon with
    | num a =>
      cases lat with
      | num b =>
        by_cases hn : (a.isNaN || b.isNaN) = true
        · simp [validPt, hn] at h
        · simp [validPt, hn] at h
          simp only [Bool.or_eq_true, not_or, Bool.not_eq_true] at hn
          subst h
          refine ⟨fun ha => ?_, fun hb => ?_⟩
          · rw [show a = JsNum.nan from ha] at hn
            exact absurd hn.1 (by simp [JsNum.isNaN])
          · rw [show b = JsNum.nan from hb] at hn
            exact absurd hn.2 (by simp [JsNum.isNaN])
      | str _ => simp [validPt] at h
      | undefVal => simp [validPt] at h
      | other => simp [validPt] at h
    | str _ => simp [validPt] at h
    | undefVal => simp [validPt] at h
    | other => simp [validPt] at h

theorem validPoints_cons_none {p : Pt} {ps : List Pt} (h : validPt p = none) :
    validPoints (p :: ps) = validPoints ps := by
  simp [validPoints, List.filterMap_cons, h]

theorem validPoints_cons_some {p : Pt} {ps : List Pt} {q : JsNum × JsNum}
    (h : validPt p = some q) : validPoints (p :: ps) = q :: validPoints ps := by
  simp [validPoints, List.filterMap_cons, h]

theorem keptPoints_cons_none {p : Pt} {ps : List Pt} (h : validPt p = none) :
    keptPoints (p :: ps) = keptPoints ps := by
  unfold keptPoints
  rw [validPoints_cons_none h]

theorem keptPoints_cons_some {p : Pt} {ps : List Pt} {q : JsNum × JsNum}
    (h : validPt p = some q) :
    keptPoints (p :: ps) = q :: dedupNear q (validPoints ps) := by
  unfold keptPoints
  rw [validPoints_cons_some h]

theorem sanLoop_snd (ring : List Pt) :
    ∀ (out : List JsNum) (b : BBox),
      (sanLoop ring out b).2 =
        (validPoints ring).foldl (fun b p => b.update p.1 p.2) b := by
  induction ring with
  | nil => intro out b; rfl
  | cons p ps ih =>
    intro out b
    cases hv : validPt p with
    | none =>
        simp only [sanLoop, hv, validPoints_cons_none hv]
        exact ih out b
    | some q =>
        obtain ⟨lon, lat⟩ := q
        simp only [sanLoop, hv, validPoints_cons_some hv]
        exact ih _ _

theorem sanLoop_fst_cons (ps : List Pt) :
    ∀ (lon lat : JsNum) (rest : List JsNum) (b : BBox),
      (sanLoop ps (lat :: lon :: rest) b).1 =
        (flatPairs (dedupNear (lon, lat) (validPoints ps))).reverse ++ (lat :: lon :: rest) := by
  induction ps with
  | nil => intro lon lat rest b; simp [sanLoop, validPoints, dedupNear, flatPairs]
  | cons p ps ih =>
    intro lon lat rest b
    cases hv : validPt p with
    | none =>
        simp only [sanLoop, hv, validPoints_cons_none hv]
        exact ih lon lat rest b
    | some q =>
        obtain ⟨a, c⟩ := q
        simp only [sanLoop, hv, validPoints_cons_some hv]
        by_cases hnear : isNear (a, c) (lon, lat) = true
        · have hpush : pushDedup (lat :: lon :: rest) a c = lat :: lon :: rest := by
            simp only [pushDedup]
            rw [if_pos]
            simpa [isNear] using hnear
          rw [hpush, dedupNear, if_pos hnear]
          exact ih lon lat rest _
        · have hpush : pushDedup (lat :: lon :: rest) a c = c :: a :: lat :: lon :: rest := by
            simp only [pushDedup]
            rw [if_neg]
            simpa [isNear] using hnear
          rw [hpush, dedupNear, if_neg hnear]
          rw [ih a c (lat :: lon :: rest) _]
          simp [flatPairs]

theorem sanLoop_fst (ring : List Pt) :
    ∀ b : BBox, (sanLoop ring [] b).1 = (flatPairs (keptPoints ring)).reverse := by
  induction ring with
  | nil => intro b; simp [sanLoop, keptPoints, validPoints, flatPairs]
  | cons p ps ih =>
    intro b
    cases hv : validPt p with
    | none =>
        simp only [sanLoop, hv, keptPoints_cons_none hv]
        exact ih b
    | some q =>
        obtain ⟨a, c⟩ := q
        simp only [sanLoop, hv, keptPoints_cons_some hv]
        have hpush : pushDedup [] a c = [c, a] := rfl
        rw [hpush, sanLoop_fst_cons ps a c [] _]
        simp [flatPairs]

theorem ringToDegreesFlat_eq (ring : List Pt) :
    ringToDegreesFlat ring =
      if (bboxOf (validPoints ring)).degenerate = true then []
      else flatPairs (keptPoints ring) := by
  have hsnd : (sanLoop ring [] .init).2 = bboxOf (validPoints ring) := sanLoop_snd ring [] .init
  have hfst : (sanLoop ring [] .init).1 = (flatPairs (keptPoints ring)).reverse :=
    sanLoop_fst ring .init
  simp only [ringToDegreesFlat, hsnd, hfst, BBox.degenerate, List.reverse_reverse]

theorem flatPairs_length (l : List (JsNum × JsNum)) : (flatPairs l).length = 2 * l.length := by
  induction l with
  | nil => rfl
  | cons p ps ih => simp [flatPairs] at ih ⊢; omega

theorem mem_flatPairs {x : JsNum} {l : List (JsNum × JsNum)} (h : x ∈ flatPairs l) :
    ∃ q ∈ l, x = q.1 ∨ x = q.2 := by
  simp only [flatPairs, List.mem_flatMap] at h
  obtain ⟨q, hq, hx⟩ := h
  simp only [List.mem_cons, List.mem_singleton] at hx
  exact ⟨q, hq, by tauto⟩

theorem mem_dedupNear {q : JsNum × JsNum} :
    ∀ {last : JsNum × JsNum} {l : List (JsNum × JsNum)}, q ∈ dedupNear last l → q ∈ l := by
  intro last l
  induction l generalizing last with
  | nil => simp [dedupNear]
  | cons p ps ih =>
    rw [dedupNear]
    split
    · intro h; exact List.mem_cons_of_mem _ (ih h)
    · intro h
      rcases List.mem_cons.mp h with h | h
      · exact h ▸ List.mem_cons_self _ _
      · exact List.mem_cons_of_mem _ (ih h)

theorem mem_keptPoints {q : JsNum × JsNum} {ring : List Pt} (h : q ∈ keptPoints ring) :
    q ∈ validPoints ring := by
  unfold keptPoints at h
  cases hv : validPoints ring with
  | nil => rw [hv] at h; simp at h
  | cons p ps =>
    rw [hv] at h
    rcases List.mem_cons.mp h with h | h
    · exact h ▸ List.mem_cons_self _ _
    · exact List.mem_cons_of_mem _ (mem_dedupNear h)

theorem mem_validPoints_not_nan {q : JsNum × JsNum} {ring : List Pt}
    (h : q ∈ validPoints ring) : q.1 ≠ JsNum.nan ∧ q.2 ≠ JsNum.nan := by
  simp only [validPoints, List.mem_filterMap] at h
  obtain ⟨p, _, hp⟩ := h
  exact validPt_some_not_nan hp

/-! ## Claim C3 -/

/-- C3: for every input ring whose valid-point bounding box has width or
height below `1e-7` degrees, the sanitiser rejects the ring outright —
`ringToDegreesFlat` returns the empty reject signal — and no primitive is
built from it: any polygon with that ring as its outer ring is rejected
by `buildPolygonHierarchy` and contributes no entity, even when the ring
has 3 or more valid points after filtering. -/
theorem c3_degenerate_bbox_rejected (ring : List Pt)
    (h : (bboxOf (validPoints ring)).degenerate = true) :
    ringToDegreesFlat ring = [] ∧
    (∀ rest, buildPolygonHierarchy (ring :: rest) = none) ∧
    (∀ rest material props, addPolygon2d (ring :: rest) material props = none) := by
  have h1 : ringToDegreesFlat ring = [] := by rw [ringToDegreesFlat_eq, if_pos h]
  refine ⟨h1, fun rest => ?_, fun rest material props => ?_⟩
  · simp [buildPolygonHierarchy, h1]
  · simp [addPolygon2d, buildPolygonHierarchy, h1]

/-- Witness for C3 at a concrete ring: four valid colinear points
spanning `6e-7` in longitude but `0` in latitude. -/
theorem c3_degenerate_bbox_rejected_witness :
    (bboxOf (validPoints colinearRing)).degenerate = true ∧
    (validPoints colinearRing).length = 4 ∧
    ringToDegreesFlat colinearRing = [] ∧
    buildPolygonHierarchy [colinearRing] = none := by
  have hd : (bboxOf (validPoints colinearRing)).degenerate = true := by
    norm_num [colinearRing, bboxOf, validPoints, List.filterMap_cons, validPt, BBox.degenerate,
      BBox.update, BBox.init, EPSn, EPS, JsNum.sub, JsNum.add, JsNum.neg, JsNum.lt,
      JsNum.isNaN]
  have h := c3_degenerate_bbox_rejected colinearRing hd
  refine ⟨hd, ?_, h.1, h.2.1 []⟩
  norm_num [colinearRing, validPoints, List.filterMap_cons, validPt, JsNum.isNaN]

/-! ## Claim C4 -/

/-- C4: every outer ring that retains fewer than 3 distinct vertices
after dropping invalid points and deduplication is rejected:
`buildPolygonHierarchy` returns the reject signal `null` and no
primitive is constructed from the polygon. -/
theorem c4_too_few_vertices_rejected (rings : List (List Pt)) (r0 : List Pt)
    (h : rings.head? = some r0) (hk : (keptPoints r0).length < 3) :
    buildPolygonHierarchy rings = none ∧
    ∀ material props, addPolygon2d rings material props = none := by
  cases rings with
  | nil => simp at h
  | cons a rest =>
    have ha : a = r0 := by simpa using h
    rw [← ha] at hk
    have hlen : (ringToDegreesFlat a).length < 6 := by
      rw [ringToDegreesFlat_eq]
      split
      · simp
      · rw [flatPairs_length]; omega
    have hb : buildPolygonHierarchy (a :: rest) = none := by
      simp only [buildPolygonHierarchy]
      rw [if_pos hlen]
    exact ⟨hb, fun material props => by simp [addPolygon2d, hb]⟩

/-- Witness for C4 at a concrete two-point ring. -/
theorem c4_too_few_vertices_rejected_witness :
    (keptPoints twoPointRing).length = 2 ∧
    buildPolygonHierarchy [twoPointRing] = none := by
  have hk : (keptPoints twoPointRing).length = 2 := by
    norm_num [twoPointRing, keptPoints, validPoints, List.filterMap_cons, validPt, dedupNear,
      isNear, EPSn, EPS, JsNum.sub, JsNum.add, JsNum.neg, JsNum.abs, JsNum.lt, JsNum.isNaN]
  exact ⟨hk, (c4_too_few_vertices_rejected [twoPointRing] twoPointRing rfl (by omega)).1⟩

/-! ## Claim C2 (corrected) -/

/-- C2, counterexample to the claim as stated: the validity filter tests
`Number.isNaN` only, so a point with longitude `Infinity` is kept, and
the non-finite coordinate appears in the flat list handed onward —
contradicting "no non-finite coordinate (NaN or Infinity) ever appears
in the flat coordinate list". -/
theorem c2_infinity_in_output :
    JsNum.inf ∈ ringToDegreesFlat infinityRing ∧ JsNum.inf.isFinite = false := by
  constructor
  · norm_num [infinityRing, ringToDegreesFlat, sanLoop, validPt, pushDedup, BBox.update,
      BBox.init, EPSn, EPS, JsNum.sub, JsNum.add, JsNum.neg, JsNum.abs, JsNum.lt, JsNum.isNaN]
  · rfl

/-- C2 as amended: unless the ring is rejected for a degenerate
bounding box, the sanitiser's output is exactly the flat form of the
input points that are numeric and not `NaN` (`±Infinity` passes the
filter), minus every point whose longitude and latitude both differ by
less than `1e-7` from the previously kept point; and `NaN` never appears
in the output. -/
theorem c2_filter_dedup_characterisation (ring : List Pt) :
    ((bboxOf (validPoints ring)).degenerate = false →
      ringToDegreesFlat ring = flatPairs (keptPoints ring)) ∧
    JsNum.nan ∉ ringToDegreesFlat ring := by
  constructor
  · intro h
    rw [ringToDegreesFlat_eq, if_neg (by simp [h])]
  · intro hmem
    rw [ringToDegreesFlat_eq] at hmem
    by_cases hd : (bboxOf (validPoints ring)).degenerate = true
    · rw [if_pos hd] at hmem; simp at hmem
    · rw [if_neg hd] at hmem
      obtain ⟨q, hq, hor⟩ := mem_flatPairs hmem
      have hnn := mem_validPoints_not_nan (mem_keptPoints hq)
      rcases hor with hor | hor
      · exact hnn.1 hor.symm
      · exact hnn.2 hor.symm

/-- Witness for C2 (amended) at a concrete non-degenerate ring. -/
theorem c2_filter_dedup_characterisation_witness :
    ringToDegreesFlat squareRing = flatPairs (keptPoints squareRing) ∧
    JsNum.nan ∉ ringToDegreesFlat squareRing := by
  refine ⟨(c2_filter_dedup_characterisation squareRing).1 ?_,
    (c2_filter_dedup_characterisation squareRing).2⟩
  norm_num [squareRing, bboxOf, validPoints, List.filterMap_cons, validPt, BBox.degenerate,
    BBox.update, BBox.init, EPSn, EPS, JsNum.sub, JsNum.add, JsNum.neg, JsNum.lt, JsNum.isNaN]

/-! ## Claim C6 -/

theorem foldl_min_le_init (vs : List ℚ) : ∀ a : ℚ, vs.foldl min a ≤ a := by
  induction vs with
  | nil => intro a; simp
  | cons w ws ih => intro a; exact le_trans (ih (min a w)) (min_le_left a w)

theorem foldl_min_le_mem {x : ℚ} {vs : List ℚ} (hx : x ∈ vs) : ∀ a, vs.foldl min a ≤ x := by
  induction vs with
  | nil => simp at hx
  | cons w ws ih =>
    intro a
    rcases List.mem_cons.mp hx with h | h
    · exact le_trans (foldl_min_le_init ws (min a w)) (h ▸ min_le_right a w)
    · exact ih h (min a w)

theorem le_foldl_max_init (vs : List ℚ) : ∀ a : ℚ, a ≤ vs.foldl max a := by
  induction vs with
  | nil => intro a; simp
  | cons w ws ih => intro a; exact le_trans (le_max_left a w) (ih (max a w))

theorem le_foldl_max_mem {x : ℚ} {vs : List ℚ} (hx : x ∈ vs) : ∀ a, x ≤ vs.foldl max a := by
  induction vs with
  | nil => simp at hx
  | cons w ws ih =>
    intro a
    rcases List.mem_cons.mp hx with h | h
    · exact le_trans (h ▸ le_max_right a w) (le_foldl_max_init ws (max a w))
    · exact ih h (max a w)

theorem priorityRange2d_bounds {d : FeatureCollection CorridorProps} {mn mx v : ℚ}
    {f : Feature CorridorProps} (hf : f ∈ d.features)
    (hr : computePriorityRange2d (some d) = some ⟨mn, mx⟩)
    (hv : asNumber (priorityID2d f.properties) = some v) :
    mn ≤ v ∧ v ≤ mx := by
  simp only [computePriorityRange2d] at hr
  cases hvals : d.features.filterMap (fun f => asNumber (priorityID2d f.properties)) with
  | nil => rw [hvals] at hr; simp at hr
  | cons v0 vs =>
    rw [hvals] at hr
    simp only [Option.some.injEq, PriorityRange.mk.injEq] at hr
    obtain ⟨hmn, hmx⟩ := hr
    have hmem : v ∈ v0 :: vs := by
      rw [← hvals]
      exact List.mem_filterMap.mpr ⟨f, hf, hv⟩
    rcases List.mem_cons.mp hmem with h | h
    · exact ⟨hmn ▸ h ▸ foldl_min_le_init vs v0, hmx ▸ h ▸ le_foldl_max_init vs v0⟩
    · exact ⟨hmn ▸ foldl_min_le_mem h v0, hmx ▸ le_foldl_max_mem h v0⟩

/-- C6: for every feature whose priority attribute parses permissively
to a finite `v`, with a non-null priority range `{min, max}`, the 2D
colour is the lerp of the light-yellow and dark-red endpoints at
`t = clamp01((v - min) / (max - min || 1))`; when `min == max` the
denominator falls back to `1` and every feature of the collection (whose
parsed value necessarily equals `min`) gets the light endpoint colour
(`t = 0`, no division by zero); when `min < max` a feature with
`v = max` gets `t = 1` and the dark endpoint colour exactly. -/
theorem c6_gradient_interpolation :
    (∀ (props : Option CorridorProps) (mn mx v : ℚ),
       asNumber (priorityID2d props) = some v →
       getColor2d props (some ⟨mn, mx⟩) =
         Color.lerp (Color.fromBytes 255 255 204 135) (Color.fromBytes 177 0 38 135)
           (.fin (clamp01 ((v - mn) / (if mx - mn = 0 then 1 else mx - mn)))))
    ∧ (∀ (d : FeatureCollection CorridorProps) (f : Feature CorridorProps) (mn mx v : ℚ),
        f ∈ d.features →
        computePriorityRange2d (some d) = some ⟨mn, mx⟩ →
        asNumber (priorityID2d f.properties) = some v →
        mn = mx →
        getColor2d f.properties (some ⟨mn, mx⟩) = Color.fromBytes 255 255 204 135)
    ∧ (∀ (props : Option CorridorProps) (mn mx : ℚ),
        mn < mx →
        asNumber (priorityID2d props) = some mx →
        getColor2d props (some ⟨mn, mx⟩) = Color.fromBytes 177 0 38 135) := by
  have hmain : ∀ (props : Option CorridorProps) (mn mx v : ℚ),
      asNumber (priorityID2d props) = some v →
      getColor2d props (some ⟨mn, mx⟩) =
        Color.lerp (Color.fromBytes 255 255 204 135) (Color.fromBytes 177 0 38 135)
          (.fin (clamp01 ((v - mn) / (if mx - mn = 0 then 1 else mx - mn)))) := by
    intro props mn mx v h
    simp [getColor2d, h]
  refine ⟨hmain, ?_, ?_⟩
  · intro d f mn mx v hf hr hv hmnmx
    obtain ⟨h1, h2⟩ := priorityRange2d_bounds hf hr hv
    have hveq : v = mn := le_antisymm (hmnmx ▸ h2) h1
    rw [hmain f.properties mn mx v hv, hveq, ← hmnmx]
    norm_num [clamp01, Color.lerp, Color.lerpNum, Color.fromBytes, JsNum.sub, JsNum.add,
      JsNum.neg, JsNum.mul]
  · intro props mn mx hlt hv
    rw [hmain props mn mx mx hv]
    have hne : mx - mn ≠ 0 := sub_ne_zero.mpr (ne_of_gt hlt)
    rw [if_neg hne, div_self hne]
    norm_num [clamp01, Color.lerp, Color.lerpNum, Color.fromBytes, JsNum.sub, JsNum.add,
      JsNum.neg, JsNum.mul]

/-- Witness for C6 at the spec's scenario: range `{min: 1, max: 10}` and
priority `10` give the dark endpoint colour exactly. -/
theorem c6_gradient_interpolation_witness :
    getColor2d (some ⟨.num (.fin 10)⟩) (some ⟨1, 10⟩) = Color.fromBytes 177 0 38 135 :=
  c6_gradient_interpolation.2.2 (some ⟨.num (.fin 10)⟩) 1 10 (by norm_num) rfl

/-! ## Claim C9 -/

/-- C9: during a sync pass, a provided (non-empty) per-layer `colorHex`
override takes precedence over the computed colour: the fill colour is
the hex colour's RGB, with alpha equal to the override alpha when
provided and the computed colour's alpha otherwise; a lone alpha
override keeps the computed RGB and replaces only the alpha.  The last
conjunct records that `hexToColor`'s RGB depends only on the hex string,
so alpha is independently overridable. -/
theorem c9_layer_style_override :
    (∀ props range hx a, hx ≠ "" →
       material2d props range (some hx) (some a) = hexToColor hx (.fin a))
    ∧ (∀ props range hx, hx ≠ "" →
       material2d props range (some hx) none = hexToColor hx (getColor2d props range).alpha)
    ∧ (∀ props range a,
       material2d props range none (some a) =
         ⟨(getColor2d props range).red, (getColor2d props range).green,
          (getColor2d props range).blue, .fin a⟩)
    ∧ (∀ hx a b, (hexToColor hx a).alpha = a ∧ (hexToColor hx a).red = (hexToColor hx b).red ∧
        (hexToColor hx a).green = (hexToColor hx b).green ∧
        (hexToColor hx a).blue = (hexToColor hx b).blue)
    ∧ (∀ props range hx a, hx ≠ "" →
       material3d props range (some hx) (some a) = hexToColor hx (.fin a))
    ∧ (∀ props range hx, hx ≠ "" →
       material3d props range (some hx) none = hexToColor hx (getColor3d props range).alpha)
    ∧ (∀ props range a,
       material3d props range none (some a) =
         ⟨(getColor3d props range).red, (getColor3d props range).green,
          (getColor3d props range).blue, .fin a⟩)
    ∧ (∀ hx a, hx ≠ "" → materialHdb (some hx) (some a) = hexToColor hx (.fin a))
    ∧ (∀ hx, hx ≠ "" → materialHdb (some hx) none = hexToColor hx HDB_DEFAULT_COLOR.alpha)
    ∧ (∀ a, materialHdb none (some a) =
        ⟨HDB_DEFAULT_COLOR.red, HDB_DEFAULT_COLOR.green, HDB_DEFAULT_COLOR.blue, .fin a⟩) := by
  refine ⟨?_, ?_, ?_, ?_, ?_, ?_, ?_, ?_, ?_, ?_⟩
  · intro props range hx a h
    simp [material2d, h]
  · intro props range hx h
    simp [material2d, h]
  · intro props range a
    simp [material2d, applyAlpha]
  · intro hx a b
    exact ⟨rfl, rfl, rfl, rfl⟩
  · intro props range hx a h
    simp [material3d, h]
  · intro props range hx h
    simp [material3d, h]
  · intro props range a
    simp [material3d, applyAlpha]
  · intro hx a h
    simp [materialHdb, h]
  · intro hx h
    simp [materialHdb, h]
  · intro a
    simp [materialHdb, applyAlpha]

/-- Witness for C9 at a concrete hex override with an explicit alpha. -/
theorem c9_layer_style_override_witness :
    material2d none none (some "#102030") (some (1 / 2)) = hexToColor "#102030" (.fin (1 / 2)) :=
  c9_layer_style_override.1 none none "#102030" (1 / 2) (by simp)

/-! ## Claim C10 -/

theorem addPolygon3d_some_heights {rings : List (List Pt)} {mn mx : JsNum} {mat : Color}
    {props : Network3DProps} {e : Entity} (h : addPolygon3d rings mn mx mat props = some e) :
    e.polygon.height = mn ∧ e.polygon.extrudedHeight = mx := by
  simp only [addPolygon3d] at h
  cases hb : buildPolygonHierarchy rings with
  | none => rw [hb] at h; simp at h
  | some hh =>
      rw [hb] at h
      simp only [Option.some.injEq] at h
      rw [← h]
      exact ⟨rfl, rfl⟩

theorem mem_addRingsWith {add : List (List Pt) → Option Entity} {rings : List (List Pt)}
    {e : Entity} (h : e ∈ addRingsWith add rings) : ∃ rs, add rs = some e := by
  cases rings with
  | nil => simp [addRingsWith] at h
  | cons r0 rest =>
    simp only [addRingsWith] at h
    by_cases hlen : r0.length < 3
    · rw [if_pos hlen] at h; simp at h
    · rw [if_neg hlen] at h
      cases ha : add (r0 :: rest) with
      | none => rw [ha] at h; simp at h
      | some e' =>
          rw [ha] at h
          simp only [Option.toList_some, List.mem_singleton] at h
          exact ⟨r0 :: rest, by rw [ha, h]⟩

theorem mem_geometryEntities {add : List (List Pt) → Option Entity} {g : Geometry} {e : Entity}
    (h : e ∈ geometryEntities add g) : ∃ rs, add rs = some e := by
  cases g with
  | polygon coords =>
      simp only [geometryEntities] at h
      exact mem_addRingsWith h
  | multiPolygon polys =>
      simp only [geometryEntities, List.mem_flatMap] at h
      obtain ⟨rs, _, h⟩ := h
      exact mem_addRingsWith h

theorem minAltOf_not_num {props : Network3DProps}
    (h : ∀ x, props.min_altitude ≠ .num x) : minAltOf props = .fin 0 := by
  unfold minAltOf
  cases hm : props.min_altitude with
  | num x => exact absurd hm (h x)
  | str _ => rfl
  | undefVal => rfl
  | other => rfl

theorem maxAltOf_not_num {props : Network3DProps}
    (h : ∀ x, props.max_altitude ≠ .num x) :
    maxAltOf props = (minAltOf props).add (.fin 100) := by
  unfold maxAltOf
  cases hm : props.max_altitude with
  | num x => exact absurd hm (h x)
  | str _ => rfl
  | undefVal => rfl
  | other => rfl

/-- C10: in `sync3dCorridorLayer`'s per-feature processing, every
produced entity is extruded from `minAltOf props` to `maxAltOf props`;
a feature whose `min_altitude` is not a number gets base height `0`, one
whose `max_altitude` is not a number is extruded to `min_altitude + 100`,
and a feature with neither altitude attribute becomes a 100-unit-tall
extrusion from the ground — regardless of priority range and layer style
overrides. -/
theorem c10_altitude_defaults (range : Option PriorityRange) (colorHex : Option String)
    (alpha : Option ℚ) (f : Feature Network3DProps) (e : Entity)
    (he : e ∈ processFeature3d range colorHex alpha f) :
    (e.polygon.height = minAltOf (f.properties.getD emptyNetwork3dProps) ∧
     e.polygon.extrudedHeight = maxAltOf (f.properties.getD emptyNetwork3dProps)) ∧
    ((∀ x, (f.properties.getD emptyNetwork3dProps).min_altitude ≠ .num x) →
       e.polygon.height = .fin 0) ∧
    ((∀ x, (f.properties.getD emptyNetwork3dProps).max_altitude ≠ .num x) →
       e.polygon.extrudedHeight =
         (minAltOf (f.properties.getD emptyNetwork3dProps)).add (.fin 100)) ∧
    ((∀ x, (f.properties.getD emptyNetwork3dProps).min_altitude ≠ .num x) →
     (∀ x, (f.properties.getD emptyNetwork3dProps).max_altitude ≠ .num x) →
       e.polygon.height = .fin 0 ∧ e.polygon.extrudedHeight = .fin 100) := by
  cases hg : f.geometry with
  | none => simp [processFeature3d, hg] at he
  | some geom =>
    simp only [processFeature3d, hg] at he
    obtain ⟨rs, hrs⟩ := mem_geometryEntities he
    obtain ⟨h1, h2⟩ := addPolygon3d_some_heights hrs
    refine ⟨⟨h1, h2⟩, fun hnm => ?_, fun hxm => ?_, fun hnm hxm => ?_⟩
    · rw [h1, minAltOf_not_num hnm]
    · rw [h2, maxAltOf_not_num hxm]
    · refine ⟨by rw [h1, minAltOf_not_num hnm], ?_⟩
      rw [h2, maxAltOf_not_num hxm, minAltOf_not_num hnm]
      norm_num [JsNum.add]

/-- Witness for C10 at a concrete 3D feature with no altitude
attributes: its produced entity sits on the ground and is extruded to
100. -/
theorem c10_altitude_defaults_witness :
    entity3dNoAlt.polygon.height = .fin 0 ∧
    entity3dNoAlt.polygon.extrudedHeight = .fin 100 := by
  have hmem : entity3dNoAlt ∈ processFeature3d none none none feature3dNoAlt := by
    have hev : processFeature3d none none none feature3dNoAlt = [entity3dNoAlt] := by
      norm_num [processFeature3d, feature3dNoAlt, entity3dNoAlt, geometryEntities, addRingsWith,
        addPolygon3d, buildPolygonHierarchy, ringToDegreesFlat, sanLoop, validPt, pushDedup,
        BBox.update, BBox.init, EPSn, EPS, fromDegreesArray, minAltOf, maxAltOf, material3d,
        getColor3d, priorityNum3d, corridorTypeColor, emptyNetwork3dProps, JsNum.sub, JsNum.add,
        JsNum.neg, JsNum.abs, JsNum.lt, JsNum.isNaN, JsNum.isFinite, Color.fromBytes,
        OUTLINE_COLOR, List.mapM, List.mapM.loop,
        (show ("default" : String) ≠ "open_space" by decide),
        (show ("default" : String) ≠ "above_building" by decide)]
    rw [hev]
    exact List.mem_singleton.mpr rfl
  exact (c10_altitude_defaults none none none feature3dNoAlt entity3dNoAlt hmem).2.2.2
    (fun x h => JsVal.noConfusion h) (fun x h => JsVal.noConfusion h)

/-! ## Claim C5 -/

theorem drop_isEmpty_length {P : Type} {remaining : List P}
    (h : (remaining.drop 200).isEmpty = true) : remaining.length ≤ 200 := by
  have := List.isEmpty_iff.mp h
  have hl := congrArg List.length this
  simp only [List.length_drop, List.length_nil] at hl
  omega

theorem drop_not_isEmpty_length {P : Type} {remaining : List P}
    (h : ¬ (remaining.drop 200).isEmpty = true) : 200 < remaining.length := by
  rcases Nat.lt_or_ge 200 remaining.length with h' | h'
  · exact h'
  · exact absurd (List.isEmpty_iff.mpr (List.drop_eq_nil_of_le h')) h

theorem processChunks_fst {P : Type} (pf : Feature P → List Entity) (signal : ℕ → Bool) :
    ∀ (n : ℕ) (remaining : List (Feature P)), remaining.length ≤ n →
      ∀ (chunkIdx : ℕ) (acc : List Entity),
        (processChunks pf signal chunkIdx remaining acc).1 = 1 := by
  intro n
  induction n with
  | zero =>
    intro remaining h chunkIdx acc
    have hnil : remaining = [] := List.eq_nil_of_length_eq_zero (by omega)
    subst hnil
    rw [processChunks]
    by_cases hs : signal chunkIdx = true
    · rw [if_pos hs]
    · rw [if_neg hs, dif_pos (by simp)]
  | succ n ih =>
    intro remaining h chunkIdx acc
    rw [processChunks]
    by_cases hs : signal chunkIdx = true
    · rw [if_pos hs]
    · rw [if_neg hs]
      by_cases hre : (remaining.drop 200).isEmpty = true
      · rw [dif_pos hre]
      · rw [dif_neg hre]
        have hlt := drop_not_isEmpty_length hre
        exact ih (remaining.drop 200) (by simp only [List.length_drop]; omega) (chunkIdx + 1) _

theorem processChunks_complete {P : Type} (pf : Feature P → List Entity) (signal : ℕ → Bool)
    (hsig : ∀ j, signal j = false) :
    ∀ (n : ℕ) (remaining : List (Feature P)), remaining.length ≤ n →
      ∀ (chunkIdx : ℕ) (acc : List Entity),
        (processChunks pf signal chunkIdx remaining acc).2 = acc ++ remaining.flatMap pf := by
  intro n
  induction n with
  | zero =>
    intro remaining h chunkIdx acc
    have hnil : remaining = [] := List.eq_nil_of_length_eq_zero (by omega)
    subst hnil
    rw [processChunks, if_neg (by simp [hsig]), dif_pos (by simp)]
    simp
  | succ n ih =>
    intro remaining h chunkIdx acc
    rw [processChunks, if_neg (by simp [hsig])]
    by_cases hre : (remaining.drop 200).isEmpty = true
    · rw [dif_pos hre]
      rw [List.take_of_length_le (drop_isEmpty_length hre)]
    · rw [dif_neg hre]
      have hlt := drop_not_isEmpty_length hre
      rw [ih (remaining.drop 200) (by simp only [List.length_drop]; omega) (chunkIdx + 1) _]
      conv_rhs => rw [← List.take_append_drop 200 remaining]
      rw [List.flatMap_append, ← List.append_assoc]

theorem processChunks_aborted {P : Type} (pf : Feature P → List Entity) (signal : ℕ → Bool) :
    ∀ (k chunkIdx : ℕ) (remaining : List (Feature P)) (acc : List Entity),
      signal (chunkIdx + k) = true → (∀ j, j < k → signal (chunkIdx + j) = false) →
      (processChunks pf signal chunkIdx remaining acc).2 =
        acc ++ (remaining.take (200 * k)).flatMap pf := by
  intro k
  induction k with
  | zero =>
    intro chunkIdx remaining acc hk _
    rw [processChunks, if_pos (by simpa using hk)]
    simp
  | succ k ih =>
    intro chunkIdx remaining acc hk hlt
    have h0 : signal chunkIdx = false := by simpa using hlt 0 (by omega)
    rw [processChunks, if_neg (by simp [h0])]
    by_cases hre : (remaining.drop 200).isEmpty = true
    · rw [dif_pos hre]
      have hlen := drop_isEmpty_length hre
      rw [List.take_of_length_le hlen, List.take_of_length_le (le_trans hlen (by omega))]
    · rw [dif_neg hre]
      have hk' : signal (chunkIdx + 1 + k) = true := by
        rw [show chunkIdx + 1 + k = chunkIdx + (k + 1) by omega]
        exact hk
      have hlt' : ∀ j, j < k → signal (chunkIdx + 1 + j) = false := by
        intro j hj
        rw [show chunkIdx + 1 + j = chunkIdx + (j + 1) by omega]
        exact hlt (j + 1) (by omega)
      rw [ih (chunkIdx + 1) (remaining.drop 200) _ hk' hlt']
      conv_rhs => rw [show 200 * (k + 1) = 200 + 200 * k by ring, List.take_add]
      rw [List.flatMap_append, ← List.append_assoc]

/-- C5: each of the three sync passes resolves its promise exactly once
and never rejects (the model is a total function and counts `resolve()`
calls along every execution path): immediately when the data source is
null (container untouched), when the layer is disabled, or when the
collection is null (container left cleared); at the first chunk boundary
at which the abort signal is observed — the container then holds exactly
the first `200·k` features' entities, never a partial chunk; or after
the last chunk, with every feature's entities present. -/
theorem c5_sync_resolution :
    (∀ ds data range colorHex alpha signal enabled,
       (sync2dCorridorLayer ds data range enabled colorHex alpha signal).resolveCount = 1) ∧
    (∀ data range colorHex alpha signal enabled,
       (sync2dCorridorLayer none data range enabled colorHex alpha signal).entities = none) ∧
    (∀ l data range colorHex alpha signal,
       (sync2dCorridorLayer (some l) data range false colorHex alpha signal).entities =
         some []) ∧
    (∀ l range colorHex alpha signal enabled,
       (sync2dCorridorLayer (some l) none range enabled colorHex alpha signal).entities =
         some []) ∧
    (∀ l d range colorHex alpha signal, (∀ j, signal j = false) →
       (sync2dCorridorLayer (some l) (some d) range true colorHex alpha signal).entities =
         some (d.features.flatMap (processFeature2d range colorHex alpha))) ∧
    (∀ l d range colorHex alpha signal k, signal k = true → (∀ j, j < k → signal j = false) →
       (sync2dCorridorLayer (some l) (some d) range true colorHex alpha signal).entities =
         some ((d.features.take (200 * k)).flatMap (processFeature2d range colorHex alpha))) ∧
    (∀ ds data range colorHex alpha signal enabled,
       (sync3dCorridorLayer ds data range enabled colorHex alpha signal).resolveCount = 1) ∧
    (∀ data range colorHex alpha signal enabled,
       (sync3dCorridorLayer none data range enabled colorHex alpha signal).entities = none) ∧
    (∀ l data range colorHex alpha signal,
       (sync3dCorridorLayer (some l) data range false colorHex alpha signal).entities =
         some []) ∧
    (∀ l range colorHex alpha signal enabled,
       (sync3dCorridorLayer (some l) none range enabled colorHex alpha signal).entities =
         some []) ∧
    (∀ l d range colorHex alpha signal, (∀ j, signal j = false) →
       (sync3dCorridorLayer (some l) (some d) range true colorHex alpha signal).entities =
         some (d.features.flatMap (processFeature3d range colorHex alpha))) ∧
    (∀ l d range colorHex alpha signal k, signal k = true → (∀ j, j < k → signal j = false) →
       (sync3dCorridorLayer (some l) (some d) range true colorHex alpha signal).entities =
         some ((d.features.take (200 * k)).flatMap (processFeature3d range colorHex alpha))) ∧
    (∀ ds data colorHex alpha signal enabled,
       (syncHdbFootprintLayer ds data enabled colorHex alpha signal).resolveCount = 1) ∧
    (∀ data colorHex alpha signal enabled,
       (syncHdbFootprintLayer none data enabled colorHex alpha signal).entities = none) ∧
    (∀ l data colorHex alpha signal,
       (syncHdbFootprintLayer (some l) data false colorHex alpha signal).entities = some []) ∧
    (∀ l colorHex alpha signal enabled,
       (syncHdbFootprintLayer (some l) none enabled colorHex alpha signal).entities =
         some []) ∧
    (∀ l d colorHex alpha signal, (∀ j, signal j = false) →
       (syncHdbFootprintLayer (some l) (some d) true colorHex alpha signal).entities =
         some (d.features.flatMap (processFeatureHdb colorHex alpha))) ∧
    (∀ l d colorHex alpha signal k, signal k = true → (∀ j, j < k → signal j = false) →
       (syncHdbFootprintLayer (some l) (some d) true colorHex alpha signal).entities =
         some ((d.features.take (200 * k)).flatMap (processFeatureHdb colorHex alpha))) := by
  refine ⟨?_, ?_, ?_, ?_, ?_, ?_, ?_, ?_, ?_, ?_, ?_, ?_, ?_, ?_, ?_, ?_, ?_, ?_⟩
  · intro ds data range colorHex alpha signal enabled
    cases ds with
    | none => rfl
    | some l =>
      cases enabled with
      | false => rfl
      | true =>
        cases data with
        | none => rfl
        | some d =>
          simp only [sync2dCorridorLayer]
          exact processChunks_fst _ signal d.features.length d.features le_rfl 0 []
  · intro data range colorHex alpha signal enabled; rfl
  · intro l data range colorHex alpha signal; rfl
  · intro l range colorHex alpha signal enabled
    cases enabled <;> rfl
  · intro l d range colorHex alpha signal hsig
    simp only [sync2dCorridorLayer, Option.some.injEq]
    exact processChunks_complete _ signal hsig d.features.length d.features le_rfl 0 []
  · intro l d range colorHex alpha signal k hk hlt
    simp only [sync2dCorridorLayer, Option.some.injEq]
    have := processChunks_aborted (processFeature2d range colorHex alpha) signal k 0
      d.features [] (by simpa using hk) (by simpa using hlt)
    simpa using this
  · intro ds data range colorHex alpha signal enabled
    cases ds with
    | none => rfl
    | some l =>
      cases enabled with
      | false => rfl
      | true =>
        cases data with
        | none => rfl
        | some d =>
          simp only [sync3dCorridorLayer]
          exact processChunks_fst _ signal d.features.length d.features le_rfl 0 []
  · intro data range colorHex alpha signal enabled; rfl
  · intro l data range colorHex alpha signal; rfl
  · intro l range colorHex alpha signal enabled
    cases enabled <;> rfl
  · intro l d range colorHex alpha signal hsig
    simp only [sync3dCorridorLayer, Option.some.injEq]
    exact processChunks_complete _ signal hsig d.features.length d.features le_rfl 0 []
  · intro l d range colorHex alpha signal k hk hlt
    simp only [sync3dCorridorLayer, Option.some.injEq]
    have := processChunks_aborted (processFeature3d range colorHex alpha) signal k 0
      d.features [] (by simpa using hk) (by simpa using hlt)
    simpa using this
  · intro ds data colorHex alpha signal enabled
    cases ds with
    | none => rfl
    | some l =>
      cases enabled with
      | false => rfl
      | true =>
        cases data with
        | none => rfl
        | some d =>
          simp only [syncHdbFootprintLayer]
          exact processChunks_fst _ signal d.features.length d.features le_rfl 0 []
  · intro data colorHex alpha signal enabled; rfl
  · intro l data colorHex alpha signal; rfl
  · intro l colorHex alpha signal enabled
    cases enabled <;> rfl
  · intro l d colorHex alpha signal hsig
    simp only [syncHdbFootprintLayer, Option.some.injEq]
    exact processChunks_complete _ signal hsig d.features.length d.features le_rfl 0 []
  · intro l d colorHex alpha signal k hk hlt
    simp only [syncHdbFootprintLayer, Option.some.injEq]
    have := processChunks_aborted (processFeatureHdb colorHex alpha) signal k 0
      d.features [] (by simpa using hk) (by simpa using hlt)
    simpa using this

/-- Witness for C5 at a concrete un-aborted 2D pass over an empty
collection, and a concrete pass aborted at the very first chunk
boundary. -/
theorem c5_sync_resolution_witness :
    (sync2dCorridorLayer (some []) (some ⟨[]⟩) none true none none (fun _ => false)).entities =
      some [] ∧
    (sync2dCorridorLayer (some []) (some ⟨[]⟩) none true none none
      (fun _ => false)).resolveCount = 1 ∧
    (sync2dCorridorLayer (some []) (some ⟨[squareFeature2d]⟩) none true none none
      (fun _ => true)).entities = some [] := by
  refine ⟨?_, ?_, ?_⟩
  · have := c5_sync_resolution.2.2.2.2.1 [] ⟨[]⟩ none none none (fun _ => false)
      (fun _ => rfl)
    simpa using this
  · exact c5_sync_resolution.1 (some []) (some ⟨[]⟩) none none none (fun _ => false) true
  · have := c5_sync_resolution.2.2.2.2.2.1 [] ⟨[squareFeature2d]⟩ none none none
      (fun _ => true) 0 rfl (fun j hj => absurd hj (by omega))
    simpa using this

/-! ## Claim C8 -/

theorem selectOne_already {s : SelState} {e : EntityId}
    (h : ∃ en ∈ s.selectedEntities, en.entity = e) : selectOne s e = s := by
  unfold selectOne
  rw [if_pos]
  obtain ⟨en, hen, he⟩ := h
  exact List.any_eq_true.mpr ⟨en, hen, by simp [he]⟩

theorem selectOne_preserves {s : SelState} {e : EntityId} (x : EntityId)
    (h : ∃ en ∈ s.selectedEntities, en.entity = e) :
    (selectOne s x).selectedEntities.filter (fun en => en.entity == e) =
      s.selectedEntities.filter (fun en => en.entity == e) ∧
    (selectOne s x).displayed e = s.displayed e ∧
    (∃ en ∈ (selectOne s x).selectedEntities, en.entity = e) := by
  unfold selectOne
  split
  next => exact ⟨rfl, rfl, h⟩
  next hcond =>
    have hxe : x ≠ e := by
      intro he'
      subst he'
      obtain ⟨en, hen, hene⟩ := h
      exact hcond (List.any_eq_true.mpr ⟨en, hen, by simp [hene]⟩)
    refine ⟨?_, ?_, ?_⟩
    · simp only [List.filter_append]
      have hone : List.filter (fun en => en.entity == e)
          [SelectionEntry.mk x (s.displayed x)] = [] := by
        simp only [List.filter]
        rw [show (x == e) = false from beq_eq_false_iff_ne.mpr hxe]
      rw [hone, List.append_nil]
    · exact Function.update_noteq (Ne.symm hxe) _ _
    · obtain ⟨en, hen, hene⟩ := h
      exact ⟨en, List.mem_append_left _ hen, hene⟩

theorem clickFold_preserves {e : EntityId} :
    ∀ (picks : List Pick) (st : SelState),
      (∃ en ∈ st.selectedEntities, en.entity = e) →
      ((picks.foldl clickStep st).selectedEntities.filter (fun en => en.entity == e) =
        st.selectedEntities.filter (fun en => en.entity == e)) ∧
      (picks.foldl clickStep st).displayed e = st.displayed e ∧
      (∃ en ∈ (picks.foldl clickStep st).selectedEntities, en.entity = e) := by
  intro picks
  induction picks with
  | nil => intro st h; exact ⟨rfl, rfl, h⟩
  | cons p ps ih =>
    intro st h
    rw [List.foldl_cons]
    cases p with
    | bare => exact ih st h
    | hit x =>
      obtain ⟨h1, h2, h3⟩ := selectOne_preserves x h
      obtain ⟨ih1, ih2, ih3⟩ := ih (selectOne st x) h3
      exact ⟨ih1.trans h1, ih2.trans h2, ih3⟩

/-- C8: in the accumulating click-select handler, clicking a primitive
that is already selected leaves the state unchanged (no duplicate entry,
saved colour not re-captured, highlight not restacked); within any click
the entries and displayed colour of an already-selected primitive are
untouched; and a click whose hit test returns no objects is a complete
no-op (it does not clear the selection). -/
theorem c8_click_idempotence :
    (∀ (s : SelState) (e : EntityId), (∃ en ∈ s.selectedEntities, en.entity = e) →
       clickSelect [.hit e] s = s) ∧
    (∀ s : SelState, clickSelect [] s = s) ∧
    (∀ (s : SelState) (picks : List Pick) (e : EntityId),
       (∃ en ∈ s.selectedEntities, en.entity = e) →
       (clickSelect picks s).selectedEntities.filter (fun en => en.entity == e) =
         s.selectedEntities.filter (fun en => en.entity == e) ∧
       (clickSelect picks s).displayed e = s.displayed e) := by
  refine ⟨?_, ?_, ?_⟩
  · intro s e h
    show (if ([Pick.hit e] : List Pick).isEmpty then s else [Pick.hit e].foldl clickStep s) = s
    rw [if_neg (by simp)]
    simp only [List.foldl_cons, List.foldl_nil, clickStep]
    exact selectOne_already h
  · intro s; rfl
  · intro s picks e h
    unfold clickSelect
    split
    next => exact ⟨rfl, rfl⟩
    next =>
      obtain ⟨h1, h2, _⟩ := clickFold_preserves picks s h
      exact ⟨h1, h2⟩

/-- Witness for C8: re-clicking the already-selected entity `0` leaves
the state unchanged. -/
theorem c8_click_idempotence_witness :
    clickSelect [.hit 0] ⟨fun _ => HIGHLIGHT, [⟨0, Color.fromBytes 1 2 3 4⟩], [0]⟩ =
      ⟨fun _ => HIGHLIGHT, [⟨0, Color.fromBytes 1 2 3 4⟩], [0]⟩ :=
  c8_click_idempotence.1 ⟨fun _ => HIGHLIGHT, [⟨0, Color.fromBytes 1 2 3 4⟩], [0]⟩ 0
    ⟨⟨0, Color.fromBytes 1 2 3 4⟩, by simp, rfl⟩

/-! ## Claim C7 -/

theorem restore_foldl_nomem :
    ∀ (l : List SelectionEntry) (d : EntityId → Color) (e : EntityId),
      (∀ en ∈ l, en.entity ≠ e) →
      l.foldl (fun d en => Function.update d en.entity en.color) d e = d e := by
  intro l
  induction l with
  | nil => intro d e _; rfl
  | cons hd tl ih =>
    intro d e h
    rw [List.foldl_cons]
    rw [ih _ e (fun en hen => h en (List.mem_cons_of_mem _ hen))]
    exact Function.update_noteq (Ne.symm (h hd (List.mem_cons_self _ _))) _ _

theorem restore_foldl_mem (d0 : EntityId → Color) :
    ∀ (l : List SelectionEntry) (d : EntityId → Color) (e : EntityId),
      (∀ en ∈ l, en.color = d0 en.entity) →
      (∃ en ∈ l, en.entity = e) →
      l.foldl (fun d en => Function.update d en.entity en.color) d e = d0 e := by
  intro l
  induction l with
  | nil => intro d e _ hex; simp at hex
  | cons hd tl ih =>
    intro d e hcol hex
    rw [List.foldl_cons]
    by_cases hexl : ∃ en ∈ tl, en.entity = e
    · exact ih _ e (fun en hen => hcol en (List.mem_cons_of_mem _ hen)) hexl
    · have havoid : ∀ en ∈ tl, en.entity ≠ e := by
        intro en hen heq
        exact hexl ⟨en, hen, heq⟩
      rw [restore_foldl_nomem tl _ e havoid]
      obtain ⟨en, hen, heq⟩ := hex
      rcases List.mem_cons.mp hen with rfl | hmem
      · have hupd : Function.update d en.entity en.color e = en.color := by
          rw [heq]
          exact Function.update_same _ _ _
        rw [hupd, hcol en (List.mem_cons_self _ _), heq]
      · exact absurd ⟨en, hmem, heq⟩ hexl

theorem clearSelection_displayed {d0 : EntityId → Color} {s : SelState}
    (h1 : ∀ en ∈ s.selectedEntities, en.color = d0 en.entity)
    (h2 : ∀ e, (∀ en ∈ s.selectedEntities, en.entity ≠ e) → s.displayed e = d0 e) :
    ∀ e, (clearSelection s).displayed e = d0 e := by
  intro e
  show s.selectedEntities.foldl (fun d en => Function.update d en.entity en.color)
    s.displayed e = d0 e
  by_cases hex : ∃ en ∈ s.selectedEntities, en.entity = e
  · exact restore_foldl_mem d0 _ _ _ h1 hex
  · have havoid : ∀ en ∈ s.selectedEntities, en.entity ≠ e := by
      intro en hen heq
      exact hex ⟨en, hen, heq⟩
    rw [restore_foldl_nomem _ _ _ havoid]
    exact h2 e havoid

theorem selInv_selectOne {d0 : EntityId → Color} {s : SelState} (x : EntityId)
    (h1 : ∀ en ∈ s.selectedEntities, en.color = d0 en.entity)
    (h2 : ∀ e, (∀ en ∈ s.selectedEntities, en.entity ≠ e) → s.displayed e = d0 e) :
    (∀ en ∈ (selectOne s x).selectedEntities, en.color = d0 en.entity) ∧
    (∀ e, (∀ en ∈ (selectOne s x).selectedEntities, en.entity ≠ e) →
      (selectOne s x).displayed e = d0 e) := by
  unfold selectOne
  split
  next => exact ⟨h1, h2⟩
  next hcond =>
    have hnotsel : ∀ en ∈ s.selectedEntities, en.entity ≠ x := by
      intro en hen heq
      exact hcond (List.any_eq_true.mpr ⟨en, hen, by simp [heq]⟩)
    constructor
    · intro en hen
      rcases List.mem_append.mp hen with hmem | hmem
      · exact h1 en hmem
      · simp only [List.mem_singleton] at hmem
        subst hmem
        exact h2 x hnotsel
    · intro e he
      have hxe : x ≠ e :=
        he ⟨x, s.displayed x⟩ (List.mem_append_right _ (List.mem_singleton_self _))
      show Function.update s.displayed x HIGHLIGHT e = d0 e
      rw [Function.update_noteq (Ne.symm hxe) _ _]
      exact h2 e (fun en hen => he en (List.mem_append_left _ hen))

theorem selInv_foldl {d0 : EntityId → Color} :
    ∀ (picks : List Pick) (s : SelState),
      (∀ en ∈ s.selectedEntities, en.color = d0 en.entity) →
      (∀ e, (∀ en ∈ s.selectedEntities, en.entity ≠ e) → s.displayed e = d0 e) →
      (∀ en ∈ (picks.foldl clickStep s).selectedEntities, en.color = d0 en.entity) ∧
      (∀ e, (∀ en ∈ (picks.foldl clickStep s).selectedEntities, en.entity ≠ e) →
        (picks.foldl clickStep s).displayed e = d0 e) := by
  intro picks
  induction picks with
  | nil => intro s h1 h2; exact ⟨h1, h2⟩
  | cons p ps ih =>
    intro s h1 h2
    rw [List.foldl_cons]
    cases p with
    | bare => exact ih s h1 h2
    | hit x =>
      obtain ⟨h1', h2'⟩ := selInv_selectOne x h1 h2
      exact ih (selectOne s x) h1' h2'

theorem selInv_applyOps {d0 : EntityId → Color} :
    ∀ (ops : List SelOp) (s : SelState),
      (∀ en ∈ s.selectedEntities, en.color = d0 en.entity) →
      (∀ e, (∀ en ∈ s.selectedEntities, en.entity ≠ e) → s.displayed e = d0 e) →
      (∀ en ∈ (applyOps ops s).selectedEntities, en.color = d0 en.entity) ∧
      (∀ e, (∀ en ∈ (applyOps ops s).selectedEntities, en.entity ≠ e) →
        (applyOps ops s).displayed e = d0 e) := by
  intro ops
  induction ops with
  | nil => intro s h1 h2; exact ⟨h1, h2⟩
  | cons op ops ih =>
    intro s h1 h2
    have hstep : applyOps (op :: ops) s = applyOps ops (applyOp s op) := by
      show (op :: ops).foldl applyOp s = _
      rw [List.foldl_cons]
      rfl
    rw [hstep]
    cases op with
    | clear =>
      apply ih
      · intro en hen
        simp [applyOp, clearSelection] at hen
      · intro e _
        exact clearSelection_displayed h1 h2 e
    | click picks =>
      by_cases hp : picks.isEmpty = true
      · have hcs : applyOp s (SelOp.click picks) = s := by
          show clickSelect picks s = s
          unfold clickSelect
          rw [if_pos hp]
        rw [hcs]
        exact ih s h1 h2
      · have hcs : applyOp s (SelOp.click picks) = picks.foldl clickStep s := by
          show clickSelect picks s = _
          unfold clickSelect
          rw [if_neg hp]
        rw [hcs]
        obtain ⟨h1', h2'⟩ := selInv_foldl picks s h1 h2
        exact ih _ h1' h2'

/-- C7: for any sequence of selection operations followed by a clear,
`clearSelection` restores every primitive's displayed colour to the
colour saved at its first selection and empties the selection set; every
primitive therefore ends with exactly the colour it displayed before its
first selection (its colour in the initial state). -/
theorem c7_clear_exact_restore (ops : List SelOp) (d0 : EntityId → Color) :
    (∀ e, (applyOps (ops ++ [SelOp.clear]) (initSel d0)).displayed e = d0 e) ∧
    (applyOps (ops ++ [SelOp.clear]) (initSel d0)).selectedEntities = [] := by
  obtain ⟨h1, h2⟩ := @selInv_applyOps d0 ops (initSel d0)
    (by intro en hen; simp [initSel] at hen) (fun e _ => rfl)
  have happ : applyOps (ops ++ [SelOp.clear]) (initSel d0) =
      clearSelection (applyOps ops (initSel d0)) := by
    show (ops ++ [SelOp.clear]).foldl applyOp (initSel d0) = _
    rw [List.foldl_append]
    rfl
  rw [happ]
  exact ⟨clearSelection_displayed h1 h2, rfl⟩

/-! ## Claim C1 (code bug) -/

/-- C1, evidence of the divergence: a layer sync pass begins by clearing
the container (`ds.entities.removeAll()`), destroying every rendered
primitive of the layer, but no code path drops the `SelectionEntry`s
referencing those primitives — `selectedEntitiesRef` is emptied only by
the explicit `clearSelection` action.  Concretely: entity `0` is the 2D
layer's only primitive and is selected; after the clear step of a new
sync pass the container is empty while the stale entry for entity `0` is
still in the selection set, so the claimed drop (and with it the
displayed-colour invariant across rebuilds) does not hold. -/
theorem c1_rebuild_keeps_stale_selection :
    (sync2dClearStep selectedWorld).container2d = some [] ∧
    (sync2dClearStep selectedWorld).sel.selectedEntities =
      [⟨0, Color.fromBytes 80 160 255 135⟩] ∧
    (sync2dClearStep selectedWorld).sel.selectedEntities ≠ [] := by
  refine ⟨rfl, rfl, ?_⟩
  intro hcontra
  simp [sync2dClearStep, selectedWorld] at hcontra

end UrbanUav
